import Mathlib

/-!
Verification of `save_rtsp_videos` (src/src/main.rs).

Shallow embedding of the RTSP-recording program:

* `stream_to_file` / `runLoop` — one recording attempt (Rust `stream_to_file`):
  the demuxed packet source is a list of `SrcItem`s (error items or packets,
  each stamped with its arrival time on a monotone clock); shutdown is the
  time `Env.shutdownAt` at which the atomic flag flips to `false`; local file
  I/O is an oracle `Env.ioOk` indexed by operation count (create = op 0, then
  writes/flushes/creates in program order).  The attempt produces the list of
  filesystem events it performs (`FsEvent`), the list of completed rotations,
  and its `Except` result, mirroring the Rust control flow including `?`
  early returns and the `drop` of the `File` handle on scope exit.
* `process_stream` — the per-stream retry supervisor loop.
* `inputListener` — the stdin `q`-listener in `main`.
* `read_urls` / `mainSpawns` — line reading and per-URL thread spawning.
-/

/-- One item yielded by the collaborator's packet iterator
(`ictx.packets()` yields `Result<(Stream, Packet), Error>`):
either a stream-level error, or a packet with its lane index and
optional payload bytes.  `time` is the arrival time of the item on the
monotone clock that `Instant` reads. -/
inductive SrcItem where
  | err (time : Nat) (msg : String)
  | pkt (time : Nat) (idx : Nat) (data : Option (List Nat))
deriving DecidableEq, Repr

def SrcItem.time : SrcItem → Nat
  | .err t _ => t
  | .pkt t _ _ => t

def SrcItem.isErr : SrcItem → Bool
  | .err _ _ => true
  | .pkt _ _ _ => false

/-- A filesystem-level event performed by one recording attempt.
Files are numbered in creation order.  `write`/`flush` carry whether the
operation succeeded; `close` is the drop of the `File` handle. -/
inductive FsEvent where
  | create (fid : Nat) (time : Nat)
  | write (fid : Nat) (data : List Nat) (ok : Bool)
  | flush (fid : Nat) (ok : Bool)
  | close (fid : Nat)
deriving DecidableEq, Repr

/-- Environment of one attempt: the time at which the shared `running`
flag is stored `false` (the flag reads `true` at times `< shutdownAt`),
and the local-I/O oracle: whether the n-th filesystem operation
succeeds, and the `io::Error` display text it produces when it fails. -/
structure Env where
  shutdownAt : Nat
  ioOk : Nat → Bool
  ioMsg : Nat → String

/-- How the packet loop of `stream_to_file` ended: `done` (iterator
exhausted, or graceful break on shutdown) with the loop state
(current file, rotation-clock origin, next file id, next I/O op), or
`failed` (a `?` early return) with the error string and the file that
was open at that moment. -/
inductive LoopResult where
  | done (cur ls nf io : Nat)
  | failed (msg : String) (cur : Nat)
deriving DecidableEq, Repr

/-- Output of the packet loop: events performed, completed rotations
`(fid, openedAt, rotatedAt)`, and how the loop ended. -/
structure LoopOut where
  evs : List FsEvent
  rots : List (Nat × Nat × Nat)
  res : LoopResult

def LoopOut.pre (es : List FsEvent) (o : LoopOut) : LoopOut :=
  ⟨es ++ o.evs, o.rots, o.res⟩

def LoopOut.prerot (r : Nat × Nat × Nat) (o : LoopOut) : LoopOut :=
  ⟨o.evs, r :: o.rots, o.res⟩

/-- The packet loop of `stream_to_file` (main.rs lines 99–123).
`vi` is the selected best-video lane; state: `cur` current file id,
`ls` the `last_split` instant, `nf` next file id, `io` next I/O op
index.  Mirrors: `for (stream, packet) in ictx.packets().filter_map(|r| r.ok())`
— error items are dropped by `filter_map` before the body runs; the
body checks `running`, then lane index, then writes payload (if any),
then checks the 300-second rotation condition. -/
def runLoop (E : Env) (vi : Nat) :
    List SrcItem → Nat → Nat → Nat → Nat → LoopOut
  | [], cur, ls, nf, io => ⟨[], [], .done cur ls nf io⟩
  | .err _ _ :: rest, cur, ls, nf, io => runLoop E vi rest cur ls nf io
  | .pkt t idx data :: rest, cur, ls, nf, io =>
    if t < E.shutdownAt then
      if idx = vi then
        match data with
        | some d =>
          if E.ioOk io then
            if 300 ≤ t - ls then
              if E.ioOk (io + 1) then
                if E.ioOk (io + 2) then
                  LoopOut.pre
                    [.write cur d true, .flush cur true, .create nf t, .close cur]
                    (LoopOut.prerot (cur, ls, t)
                      (runLoop E vi rest nf t (nf + 1) (io + 3)))
                else
                  ⟨[.write cur d true, .flush cur true], [],
                    .failed ("Failed to create new output file: " ++ E.ioMsg (io + 2)) cur⟩
              else
                ⟨[.write cur d true, .flush cur false], [],
                  .failed ("Failed to flush file: " ++ E.ioMsg (io + 1)) cur⟩
            else
              LoopOut.pre [.write cur d true] (runLoop E vi rest cur ls nf (io + 1))
          else
            ⟨[.write cur d false], [],
              .failed ("Failed to write packet data: " ++ E.ioMsg io) cur⟩
        | none =>
          if 300 ≤ t - ls then
            if E.ioOk io then
              if E.ioOk (io + 1) then
                LoopOut.pre [.flush cur true, .create nf t, .close cur]
                  (LoopOut.prerot (cur, ls, t)
                    (runLoop E vi rest nf t (nf + 1) (io + 2)))
              else
                ⟨[.flush cur true], [],
                  .failed ("Failed to create new output file: " ++ E.ioMsg (io + 1)) cur⟩
            else
              ⟨[.flush cur false], [],
                .failed ("Failed to flush file: " ++ E.ioMsg io) cur⟩
          else runLoop E vi rest cur ls nf io
      else runLoop E vi rest cur ls nf io
    else ⟨[], [], .done cur ls nf io⟩

/-- Result of one whole recording attempt. -/
structure RunOut where
  evs : List FsEvent
  rots : List (Nat × Nat × Nat)
  res : Except String Unit

/-- One recording attempt (Rust `stream_to_file`, main.rs lines 85–132).
`openOk`/`openErr` model `ffmpeg::format::input(&url)`; `best` models
`.streams().best(Type::Video)` (the selected lane index);
`startTime` is the instant at which the first output file is created
and `last_split` initialised.  I/O op 0 is the initial
`create_output_file`; the final flush runs only on the `done` paths
(the `?` on a failed mid-stream operation returns early); the open
`File` is dropped — closed — on every return path. -/
def stream_to_file (E : Env) (openOk : Bool) (openErr : String)
    (best : Option Nat) (startTime : Nat) (items : List SrcItem) : RunOut :=
  if openOk then
    match best with
    | none => ⟨[], [], .error "No video stream found"⟩
    | some vi =>
      if E.ioOk 0 then
        let o := runLoop E vi items 0 startTime 1 1
        match o.res with
        | .done c _ _ io2 =>
          if E.ioOk io2 then
            ⟨.create 0 startTime :: o.evs ++ [.flush c true, .close c], o.rots, .ok ()⟩
          else
            ⟨.create 0 startTime :: o.evs ++ [.flush c false, .close c], o.rots,
              .error ("Failed to flush final file: " ++ E.ioMsg io2)⟩
        | .failed msg c =>
          ⟨.create 0 startTime :: o.evs ++ [.close c], o.rots, .error msg⟩
      else ⟨[], [], .error ("Failed to create output file: " ++ E.ioMsg 0)⟩
  else ⟨[], [], .error openErr⟩

/-- Concatenated bytes successfully written by an attempt, in order. -/
def writtenBytes (tr : List FsEvent) : List Nat :=
  (tr.filterMap fun e =>
    match e with
    | .write _ d true => some d
    | _ => none).flatten

/-- The payload an item contributes to the selected lane `vi`:
`none` for error items, foreign-lane packets and payload-less packets. -/
def videoPayload (vi : Nat) : SrcItem → Option (List Nat)
  | .err _ _ => none
  | .pkt _ idx d => if idx = vi then d else none

/-- Open-file tracking state: the list of files currently open for
write, each with a flag saying whether all data written to it so far
has been successfully flushed (a fresh file counts as unflushed). -/
def fsStep (s : List (Nat × Bool)) : FsEvent → List (Nat × Bool)
  | .create f _ => (f, false) :: s
  | .write f _ _ => s.map fun p => if p.1 = f then (f, false) else p
  | .flush f true => s.map fun p => if p.1 = f then (f, true) else p
  | .flush _ false => s
  | .close f => s.filter fun p => decide (p.1 ≠ f)

/-- Per-instant check: at most 2 files open, at most 1 of them unflushed. -/
def stOk (s : List (Nat × Bool)) : Bool :=
  decide (s.length ≤ 2) && decide ((s.filter fun p => !p.2).length ≤ 1)

/-- Walks an event trace from open-file state `s`, checking at every
instant that at most two files are open and at most one of them is
unflushed, and that a new file is only ever created while every
currently-open file is flushed. -/
def invOk (s : List (Nat × Bool)) : List FsEvent → Bool
  | [] => stOk s
  | e :: tr =>
    stOk s &&
    (match e with
     | .create _ _ => s.all fun p => p.2
     | _ => true) &&
    invOk (fsStep s e) tr

/-- Walks an event trace checking that every `close` hits a file whose
data has been successfully flushed. -/
def closeFlushedOk (s : List (Nat × Bool)) : List FsEvent → Bool
  | [] => true
  | .close f :: tr => decide ((f, true) ∈ s) && closeFlushedOk (fsStep s (.close f)) tr
  | e :: tr => closeFlushedOk (fsStep s e) tr

/-- The largest number of files simultaneously open for write at any
instant along a trace (started from no open files). -/
def maxOpen (tr : List FsEvent) : Nat :=
  ((tr.scanl fsStep []).map List.length).foldr Nat.max 0

/-- An observable event of the retry-supervisor loop `process_stream`:
a load of the `running` flag at the loop head, a full recording attempt
(with its start and end instants and its 0-based index), the load of
the flag just after an attempt, or the fixed 5-second backoff sleep. -/
inductive SupEvent where
  | headPoll (t : Nat) (running : Bool)
  | attempt (k : Nat) (tStart tEnd : Nat)
  | postPoll (t : Nat) (running : Bool)
  | sleep (tStart tEnd : Nat)
deriving DecidableEq, Repr

/-- The retry-supervisor loop (Rust `process_stream`, main.rs lines 70–83),
as the trace of events it performs, starting at time `t` with `k`
attempts already made.  `d k` is the duration of the k-th call to
`stream_to_file` (the supervisor ignores its result beyond printing);
`Ts` is the instant the shared flag is stored `false`, so a load at
time `x` reads `true` iff `x < Ts`.  The loop: load flag at the head;
if `true`, run an attempt, load the flag again, and if still `true`
sleep the full fixed 5 seconds (`thread::sleep` — not interruptible)
before the next head load. -/
def process_stream (d : Nat → Nat) (Ts : Nat) (t k : Nat) : List SupEvent :=
  if t < Ts then
    SupEvent.headPoll t true :: SupEvent.attempt k t (t + d k) ::
      (if t + d k < Ts then
        SupEvent.postPoll (t + d k) true :: SupEvent.sleep (t + d k) (t + d k + 5) ::
          process_stream d Ts (t + d k + 5) (k + 1)
      else [SupEvent.postPoll (t + d k) false, SupEvent.headPoll (t + d k) false])
  else [SupEvent.headPoll t false]
termination_by Ts - t
decreasing_by omega

def SupEvent.isAttempt : SupEvent → Bool
  | .attempt _ _ _ => true
  | _ => false

/-- Number of recording attempts in a supervisor trace. -/
def countAttempts (tr : List SupEvent) : Nat :=
  (tr.filter SupEvent.isAttempt).length

def SupEvent.isHeadTrue : SupEvent → Bool
  | .headPoll _ b => b
  | _ => false

/-- Number of loop-head flag loads that observed `running = true`. -/
def countHeadTrue (tr : List SupEvent) : Nat :=
  (tr.filter SupEvent.isHeadTrue).length

def SupEvent.time : SupEvent → Nat
  | .headPoll t _ => t
  | .attempt _ _ t1 => t1
  | .postPoll t _ => t
  | .sleep _ t1 => t1

/-- Instant at which the supervisor loop exits: the time of the last
event of its trace. -/
def exitTime (tr : List SupEvent) : Nat :=
  (tr.getLast?).elim 0 SupEvent.time

/-- The Unicode `White_Space` property, as used by Rust's
`char::is_whitespace` / `str::trim`: U+0009–U+000D, U+0020, U+0085,
U+00A0, U+1680, U+2000–U+200A, U+2028, U+2029, U+202F, U+205F and
U+3000. -/
def rustIsWhitespace (c : Char) : Bool :=
  let n := c.toNat
  (0x9 ≤ n && n ≤ 0xD) || n = 0x20 || n = 0x85 || n = 0xA0 || n = 0x1680 ||
  (0x2000 ≤ n && n ≤ 0x200A) || n = 0x2028 || n = 0x2029 || n = 0x202F ||
  n = 0x205F || n = 0x3000

/-- Rust `str::trim`: the string with leading and trailing
`White_Space` characters removed. -/
def rustTrim (s : String) : String :=
  String.mk (((s.data.dropWhile rustIsWhitespace).reverse.dropWhile
    rustIsWhitespace).reverse)

/-- The stdin listener thread of `main` (main.rs lines 26–37), over the
sequence of `read_line` results (`none` = an `Err` read, `some l` = a
line read with content `l`).  Returns whether shutdown was triggered
(`running.store(false)` executed, followed by `break`) and the input
left unconsumed when the listener stopped.  A line triggers iff its
whitespace-trimmed content equals `"q"` (`input.trim() == "q"`). -/
def inputListener : List (Option String) → Bool × List (Option String)
  | [] => (false, [])
  | none :: rest => inputListener rest
  | some l :: rest =>
    if rustTrim l = "q" then (true, rest) else inputListener rest

/-- Rust `read_urls` (main.rs lines 64–68): `reader.lines().collect()` over
the per-line results — collects the lines in order, stopping at the
first line-read error and returning it. -/
def read_urls : List (Except String String) → Except String (List String)
  | [] => .ok []
  | .error e :: _ => .error e
  | .ok l :: rest =>
    match read_urls rest with
    | .error e => .error e
    | .ok ls => .ok (l :: ls)

/-- The spawning glue of `main` (main.rs lines 40–47): read the URL
list (propagating a read error via `?`), then spawn one supervisor
thread per URL with its enumeration index — no filtering, trimming or
deduplication of the lines. -/
def mainSpawns (lines : List (Except String String)) :
    Except String (List (Nat × String)) :=
  match read_urls lines with
  | .error e => .error e
  | .ok urls => .ok urls.enum

/-- Rust `BufRead::lines` on raw content: split at each newline character,
drop a trailing carriage return of each line, and yield no final line
for content ending in a newline.  `acc` holds the current line's
characters in reverse. -/
def rustLinesAux : List Char → List Char → List (List Char)
  | [], [] => []
  | [], acc => [acc.reverse]
  | '\n' :: rest, acc =>
    (match acc with
     | '\r' :: a => a.reverse
     | _ => acc.reverse) :: rustLinesAux rest []
  | c :: rest, acc => rustLinesAux rest (c :: acc)

/-- The lines `BufRead::lines` yields for a file with content `s`. -/
def rustLines (s : String) : List String :=
  (rustLinesAux s.data []).map fun l => String.mk l

/-- Projection of the file that was open when the packet loop ended. -/
def LoopResult.cur : LoopResult → Nat
  | .done c _ _ _ => c
  | .failed _ c => c

/-- A test environment: shutdown far in the future, all I/O succeeding. -/
def allOkEnv : Env := ⟨1000000, fun _ => true, fun _ => "e"⟩

theorem process_stream_pos (d : Nat → Nat) (Ts t k : Nat) (h : t < Ts) :
    process_stream d Ts t k =
      SupEvent.headPoll t true :: SupEvent.attempt k t (t + d k) ::
        (if t + d k < Ts then
          SupEvent.postPoll (t + d k) true :: SupEvent.sleep (t + d k) (t + d k + 5) ::
            process_stream d Ts (t + d k + 5) (k + 1)
        else [SupEvent.postPoll (t + d k) false, SupEvent.headPoll (t + d k) false]) := by
  rw [process_stream]
  simp [h]

theorem process_stream_neg (d : Nat → Nat) (Ts t k : Nat) (h : ¬ t < Ts) :
    process_stream d Ts t k = [SupEvent.headPoll t false] := by
  rw [process_stream]
  simp [h]

theorem runLoop_filter_err (E : Env) (vi : Nat) :
    ∀ (items : List SrcItem) (cur ls nf io : Nat),
      runLoop E vi (items.filter fun i => !i.isErr) cur ls nf io =
        runLoop E vi items cur ls nf io := by
  intro items
  induction items with
  | nil => intro cur ls nf io; rfl
  | cons i rest ih =>
    intro cur ls nf io
    cases i with
    | err t m =>
      rw [List.filter_cons_of_neg (by simp [SrcItem.isErr])]
      rw [ih cur ls nf io]
      rfl
    | pkt t idx data =>
      rw [List.filter_cons_of_pos (by simp [SrcItem.isErr])]
      simp only [runLoop]
      simp [ih]

theorem stOk_single (c : Nat) (b : Bool) : stOk [(c, b)] = true := by
  cases b <;> simp [stOk]

theorem stOk_pair (c1 c2 : Nat) : stOk [(c1, false), (c2, true)] = true := by
  simp [stOk]

theorem invOk_absorb (s : List (Nat × Bool)) (tr : List FsEvent) :
    invOk s tr = (stOk s && invOk s tr) := by
  cases h : stOk s <;> cases tr <;> simp [invOk, h]

theorem invOk_append (s : List (Nat × Bool)) (xs ys : List FsEvent) :
    invOk s (xs ++ ys) = (invOk s xs && invOk (xs.foldl fsStep s) ys) := by
  induction xs generalizing s with
  | nil => simpa [invOk] using invOk_absorb s ys
  | cons e xs ih => simp [invOk, ih, Bool.and_assoc]

theorem closeFlushedOk_append (s : List (Nat × Bool)) (xs ys : List FsEvent) :
    closeFlushedOk s (xs ++ ys) =
      (closeFlushedOk s xs && closeFlushedOk (xs.foldl fsStep s) ys) := by
  induction xs generalizing s with
  | nil => simp [closeFlushedOk]
  | cons e xs ih => cases e <;> simp [closeFlushedOk, ih, Bool.and_assoc]

theorem runLoop_state (E : Env) (vi : Nat) :
    ∀ (items : List SrcItem) (cur ls nf io : Nat) (b : Bool), cur < nf →
      (∃ b2, (runLoop E vi items cur ls nf io).evs.foldl fsStep [(cur, b)] =
          [((runLoop E vi items cur ls nf io).res.cur, b2)]) ∧
      invOk [(cur, b)] (runLoop E vi items cur ls nf io).evs = true ∧
      closeFlushedOk [(cur, b)] (runLoop E vi items cur ls nf io).evs = true := by
  intro items
  induction items with
  | nil =>
    intro cur ls nf io b hn
    exact ⟨⟨b, rfl⟩, by simp [runLoop, invOk, stOk_single], by simp [runLoop, closeFlushedOk]⟩
  | cons i rest ih =>
    intro cur ls nf io b hn
    cases i with
    | err t m => exact ih cur ls nf io b hn
    | pkt t idx data =>
      by_cases ht : t < E.shutdownAt
      · by_cases hv : idx = vi
        · cases data with
          | none =>
            by_cases hr : 300 ≤ t - ls
            · by_cases h1 : E.ioOk io
              · by_cases h2 : E.ioOk (io + 1)
                · have hne : nf ≠ cur := Nat.ne_of_gt hn
                  obtain ⟨⟨b2, hfold⟩, hinv, hcf⟩ :=
                    ih nf t (nf + 1) (io + 2) false (Nat.lt_succ_self nf)
                  simp only [runLoop, ht, hv, hr, h1, h2, if_true, if_pos,
                    LoopOut.pre, LoopOut.prerot]
                  refine ⟨⟨b2, ?_⟩, ?_, ?_⟩
                  · simpa [fsStep, hne] using hfold
                  · simpa [invOk, fsStep, hne, stOk_single, stOk_pair] using hinv
                  · simpa [closeFlushedOk, fsStep, hne] using hcf
                · simp [runLoop, ht, hv, hr, h1, h2, invOk, fsStep, stOk_single,
                    stOk_pair, closeFlushedOk, LoopResult.cur]
              · simp [runLoop, ht, hv, hr, h1, invOk, fsStep, stOk_single,
                  closeFlushedOk, LoopResult.cur]
            · simpa [runLoop, ht, hv, hr] using ih cur ls nf io b hn
          | some d =>
            by_cases h0 : E.ioOk io
            · by_cases hr : 300 ≤ t - ls
              · by_cases h1 : E.ioOk (io + 1)
                · by_cases h2 : E.ioOk (io + 2)
                  · have hne : nf ≠ cur := Nat.ne_of_gt hn
                    obtain ⟨⟨b2, hfold⟩, hinv, hcf⟩ :=
                      ih nf t (nf + 1) (io + 3) false (Nat.lt_succ_self nf)
                    simp only [runLoop, ht, hv, hr, h0, h1, h2, if_true, if_pos,
                      LoopOut.pre, LoopOut.prerot]
                    refine ⟨⟨b2, ?_⟩, ?_, ?_⟩
                    · simpa [fsStep, hne] using hfold
                    · simpa [invOk, fsStep, hne, stOk_single, stOk_pair] using hinv
                    · simpa [closeFlushedOk, fsStep, hne] using hcf
                  · simp [runLoop, ht, hv, hr, h0, h1, h2, invOk, fsStep,
                      stOk_single, stOk_pair, closeFlushedOk, LoopResult.cur]
                · simp [runLoop, ht, hv, hr, h0, h1, invOk, fsStep, stOk_single,
                    closeFlushedOk, LoopResult.cur]
              · obtain ⟨⟨b2, hfold⟩, hinv, hcf⟩ := ih cur ls nf (io + 1) false hn
                simp only [runLoop, ht, hv, hr, h0, if_true, if_pos, LoopOut.pre]
                refine ⟨⟨b2, ?_⟩, ?_, ?_⟩
                · simpa [fsStep] using hfold
                · simpa [invOk, fsStep, stOk_single] using hinv
                · simpa [closeFlushedOk, fsStep] using hcf
            · simp [runLoop, ht, hv, h0, invOk, fsStep, stOk_single,
                closeFlushedOk, LoopResult.cur]
        · simpa [runLoop, ht, hv] using ih cur ls nf io b hn
      · simp only [runLoop, if_neg ht]
        exact ⟨⟨b, rfl⟩, by simp [invOk, stOk_single], by simp [closeFlushedOk]⟩

theorem invOk_tail_flush_close (c : Nat) (b2 x : Bool) :
    invOk [(c, b2)] [.flush c x, .close c] = true := by
  cases x <;> cases b2 <;> simp [invOk, fsStep, stOk]

theorem invOk_tail_close (c : Nat) (b2 : Bool) :
    invOk [(c, b2)] [.close c] = true := by
  cases b2 <;> simp [invOk, fsStep, stOk]

theorem invOk_create_nil (f t : Nat) (l : List FsEvent) :
    invOk [] (.create f t :: l) = invOk [(f, false)] l := by
  simp [invOk, stOk, fsStep]

theorem closeFlushedOk_create_nil (f t : Nat) (l : List FsEvent) :
    closeFlushedOk [] (.create f t :: l) = closeFlushedOk [(f, false)] l := by
  simp [closeFlushedOk, fsStep]

theorem closeFlushedOk_tail_flush_close (c : Nat) (b2 : Bool) :
    closeFlushedOk [(c, b2)] [.flush c true, .close c] = true := by
  simp [closeFlushedOk, fsStep]

theorem runLoop_rots_spec (E : Env) (vi : Nat) :
    ∀ (items : List SrcItem) (cur ls nf io : Nat), nf = cur + 1 →
      ∀ f o r, (f, o, r) ∈ (runLoop E vi items cur ls nf io).rots →
        300 ≤ r - o ∧
        (∃ d, SrcItem.pkt r vi d ∈ items) ∧
        ((f = cur ∧ o = ls) ∨ FsEvent.create f o ∈ (runLoop E vi items cur ls nf io).evs) ∧
        FsEvent.create (f + 1) r ∈ (runLoop E vi items cur ls nf io).evs := by
  intro items
  induction items with
  | nil => intro cur ls nf io hnf f o r hm; simp [runLoop] at hm
  | cons i rest ih =>
    intro cur ls nf io hnf f o r hm
    cases i with
    | err t m =>
      obtain ⟨h1, ⟨d, h2⟩, h3, h4⟩ := ih cur ls nf io hnf f o r hm
      exact ⟨h1, ⟨d, List.mem_cons_of_mem _ h2⟩, h3, h4⟩
    | pkt t idx data =>
      by_cases ht : t < E.shutdownAt
      · by_cases hv : idx = vi
        · subst hv
          cases data with
          | none =>
            by_cases hr : 300 ≤ t - ls
            · by_cases h1 : E.ioOk io
              · by_cases h2 : E.ioOk (io + 1)
                · simp only [runLoop, ht, hr, h1, h2, if_true, if_pos,
                    LoopOut.pre, LoopOut.prerot, List.mem_cons] at hm ⊢
                  rcases hm with heq | hm
                  · simp only [Prod.mk.injEq] at heq
                    obtain ⟨rfl, rfl, rfl⟩ := heq
                    refine ⟨hr, ⟨none, Or.inl rfl⟩, Or.inl ⟨rfl, rfl⟩, ?_⟩
                    simp [hnf]
                  · obtain ⟨g1, ⟨d2, g2⟩, g3, g4⟩ :=
                      ih nf t (nf + 1) (io + 2) rfl f o r hm
                    refine ⟨g1, ⟨d2, Or.inr g2⟩, ?_, by simp [g4]⟩
                    rcases g3 with ⟨rfl, rfl⟩ | g3
                    · right; simp [hnf]
                    · right; simp [g3]
                · simp [runLoop, ht, hr, h1, h2] at hm
              · simp [runLoop, ht, hr, h1] at hm
            · obtain ⟨g1, ⟨d2, g2⟩, g3, g4⟩ := by
                have := ih cur ls nf io hnf f o r (by simpa [runLoop, ht, hr] using hm)
                exact this
              exact ⟨g1, ⟨d2, List.mem_cons_of_mem _ g2⟩,
                by simpa [runLoop, ht, hr] using g3,
                by simpa [runLoop, ht, hr] using g4⟩
          | some d =>
            by_cases h0 : E.ioOk io
            · by_cases hr : 300 ≤ t - ls
              · by_cases h1 : E.ioOk (io + 1)
                · by_cases h2 : E.ioOk (io + 2)
                  · simp only [runLoop, ht, hr, h0, h1, h2, if_true, if_pos,
                      LoopOut.pre, LoopOut.prerot, List.mem_cons] at hm ⊢
                    rcases hm with heq | hm
                    · simp only [Prod.mk.injEq] at heq
                      obtain ⟨rfl, rfl, rfl⟩ := heq
                      refine ⟨hr, ⟨some d, Or.inl rfl⟩, Or.inl ⟨rfl, rfl⟩, ?_⟩
                      simp [hnf]
                    · obtain ⟨g1, ⟨d2, g2⟩, g3, g4⟩ :=
                        ih nf t (nf + 1) (io + 3) rfl f o r hm
                      refine ⟨g1, ⟨d2, Or.inr g2⟩, ?_, by simp [g4]⟩
                      rcases g3 with ⟨rfl, rfl⟩ | g3
                      · right; simp [hnf]
                      · right; simp [g3]
                  · simp [runLoop, ht, hr, h0, h1, h2] at hm
                · simp [runLoop, ht, hr, h0, h1] at hm
              · obtain ⟨g1, ⟨d2, g2⟩, g3, g4⟩ := by
                  have := ih cur ls nf (io + 1) hnf f o r
                    (by simpa [runLoop, ht, hr, h0, LoopOut.pre] using hm)
                  exact this
                refine ⟨g1, ⟨d2, List.mem_cons_of_mem _ g2⟩, ?_, ?_⟩
                · rcases g3 with g3 | g3
                  · exact Or.inl g3
                  · right; simp [runLoop, ht, hr, h0, LoopOut.pre, g3]
                · simp [runLoop, ht, hr, h0, LoopOut.pre, g4]
            · simp [runLoop, ht, h0] at hm
        · obtain ⟨g1, ⟨d2, g2⟩, g3, g4⟩ := by
            have := ih cur ls nf io hnf f o r (by simpa [runLoop, ht, hv] using hm)
            exact this
          exact ⟨g1, ⟨d2, List.mem_cons_of_mem _ g2⟩,
            by simpa [runLoop, ht, hv] using g3,
            by simpa [runLoop, ht, hv] using g4⟩
      · simp [runLoop, ht] at hm

theorem writtenBytes_append (es tr : List FsEvent) :
    writtenBytes (es ++ tr) = writtenBytes es ++ writtenBytes tr := by
  simp [writtenBytes]

theorem writtenBytes_cons_create (f t : Nat) (l : List FsEvent) :
    writtenBytes (.create f t :: l) = writtenBytes l := by
  simp [writtenBytes]

theorem writtenBytes_cons_write_true (f : Nat) (d : List Nat) (l : List FsEvent) :
    writtenBytes (.write f d true :: l) = d ++ writtenBytes l := by
  simp [writtenBytes]

theorem writtenBytes_cons_flush (f : Nat) (x : Bool) (l : List FsEvent) :
    writtenBytes (.flush f x :: l) = writtenBytes l := by
  simp [writtenBytes]

theorem writtenBytes_cons_close (f : Nat) (l : List FsEvent) :
    writtenBytes (.close f :: l) = writtenBytes l := by
  simp [writtenBytes]

theorem runLoop_written (E : Env) (vi : Nat) (hio : ∀ n, E.ioOk n = true) :
    ∀ (items : List SrcItem) (cur ls nf io : Nat),
      (∀ i ∈ items, SrcItem.time i < E.shutdownAt) →
      writtenBytes (runLoop E vi items cur ls nf io).evs =
        (items.filterMap (videoPayload vi)).flatten ∧
      ∃ c l2 n2 io2, (runLoop E vi items cur ls nf io).res = .done c l2 n2 io2 := by
  intro items
  induction items with
  | nil => intro cur ls nf io hts; exact ⟨rfl, cur, ls, nf, io, rfl⟩
  | cons i rest ih =>
    intro cur ls nf io hts
    have htr : ∀ i ∈ rest, SrcItem.time i < E.shutdownAt := fun i hi =>
      hts i (List.mem_cons_of_mem _ hi)
    cases i with
    | err t m => simpa [runLoop, videoPayload] using ih cur ls nf io htr
    | pkt t idx data =>
      have ht : t < E.shutdownAt := hts _ (List.mem_cons_self _ _)
      by_cases hv : idx = vi
      · subst hv
        cases data with
        | none =>
          by_cases hr : 300 ≤ t - ls
          · obtain ⟨hw, hres⟩ := ih nf t (nf + 1) (io + 2) htr
            simp only [runLoop, ht, hr, hio, if_true, if_pos, LoopOut.pre, LoopOut.prerot]
            refine ⟨?_, hres⟩
            simp [writtenBytes_cons_flush, writtenBytes_cons_create,
              writtenBytes_cons_close, hw, videoPayload]
          · obtain ⟨hw, hres⟩ := ih cur ls nf io htr
            simp only [runLoop, ht, hr, if_true, if_pos, if_neg, if_false]
            refine ⟨?_, hres⟩
            simp [hw, videoPayload]
        | some d =>
          by_cases hr : 300 ≤ t - ls
          · obtain ⟨hw, hres⟩ := ih nf t (nf + 1) (io + 3) htr
            simp only [runLoop, ht, hr, hio, if_true, if_pos, LoopOut.pre, LoopOut.prerot]
            refine ⟨?_, hres⟩
            simp [writtenBytes_cons_write_true, writtenBytes_cons_flush,
              writtenBytes_cons_create, writtenBytes_cons_close, hw, videoPayload]
          · obtain ⟨hw, hres⟩ := ih cur ls nf (io + 1) htr
            simp only [runLoop, ht, hr, hio, if_true, if_pos, if_neg, if_false, LoopOut.pre]
            refine ⟨?_, hres⟩
            simp [writtenBytes_cons_write_true, hw, videoPayload]
      · obtain ⟨hw, hres⟩ := ih cur ls nf io htr
        simp only [runLoop, ht, hv, if_true, if_pos, if_neg, if_false]
        refine ⟨?_, hres⟩
        simp [hw, videoPayload, hv]

/-- C5: for every packet the collaborator delivers during an attempt
(no shutdown, all local I/O succeeding): packets outside the selected
best-video lane contribute nothing to any file; a selected-lane packet
carrying payload has exactly those bytes appended verbatim, in delivery
order; a selected-lane packet without payload is skipped without error
— overall, the bytes written equal the concatenation of the selected
lane's payloads, and the attempt succeeds. -/
theorem packet_routing (E : Env) (openErr : String) (vi startTime : Nat)
    (items : List SrcItem) (hio : ∀ n, E.ioOk n = true)
    (hts : ∀ i ∈ items, SrcItem.time i < E.shutdownAt) :
    (stream_to_file E true openErr (some vi) startTime items).res = .ok () ∧
    writtenBytes (stream_to_file E true openErr (some vi) startTime items).evs =
      (items.filterMap (videoPayload vi)).flatten := by
  unfold stream_to_file
  obtain ⟨hw, c, l2, n2, io2, hres⟩ := runLoop_written E vi hio items 0 startTime 1 1 hts
  simp only [hio 0, if_true, if_pos, hres]
  simp only [hio io2, if_true, if_pos]
  refine ⟨trivial, ?_⟩
  rw [writtenBytes_append, writtenBytes_cons_create, hw]
  simp [writtenBytes]

theorem process_stream_ne_nil (d : Nat → Nat) (Ts t k : Nat) :
    process_stream d Ts t k ≠ [] := by
  by_cases h : t < Ts
  · rw [process_stream_pos d Ts t k h]; simp
  · rw [process_stream_neg d Ts t k h]; simp

theorem exitTime_cons (e : SupEvent) (l : List SupEvent) (h : l ≠ []) :
    exitTime (e :: l) = exitTime l := by
  cases l with
  | nil => exact absurd rfl h
  | cons x xs => simp [exitTime, List.getLast?_cons_cons]

theorem countAttempts_eq_countHeadTrue (d : Nat → Nat) (Ts : Nat) :
    ∀ t k, countAttempts (process_stream d Ts t k) = countHeadTrue (process_stream d Ts t k) := by
  intro t k
  induction t, k using process_stream.induct d Ts with
  | case1 t k h ih =>
    rw [process_stream_pos d Ts t k h]
    by_cases h2 : t + d k < Ts
    · simp only [h2, if_true, if_pos]
      simp [countAttempts, countHeadTrue, SupEvent.isAttempt, SupEvent.isHeadTrue,
        List.filter] at ih ⊢
      omega
    · simp only [h2, if_false, if_neg, not_false_iff]
      simp [countAttempts, countHeadTrue, SupEvent.isAttempt, SupEvent.isHeadTrue, List.filter]
  | case2 t k h =>
    rw [process_stream_neg d Ts t k h]
    simp [countAttempts, countHeadTrue, SupEvent.isAttempt, SupEvent.isHeadTrue, List.filter]

theorem countAttempts_zero_dur (m : Nat) : ∀ t k,
    countAttempts (process_stream (fun _ => 0) (t + 5 * m + 1) t k) = m + 1 := by
  induction m with
  | zero =>
    intro t k
    rw [process_stream_pos _ _ _ _ (by omega)]
    simp only [Nat.add_zero]
    rw [if_pos (by omega)]
    rw [process_stream_neg _ _ _ _ (by omega)]
    simp [countAttempts, SupEvent.isAttempt, List.filter]
  | succ m ihm =>
    intro t k
    rw [process_stream_pos _ _ _ _ (by omega)]
    simp only [Nat.add_zero]
    rw [if_pos (by omega)]
    have heq : t + 5 * (m + 1) + 1 = (t + 5) + 5 * m + 1 := by omega
    rw [heq]
    have := ihm (t + 5) (k + 1)
    simp [countAttempts, SupEvent.isAttempt, List.filter] at this ⊢
    omega

theorem trace1_eq : process_stream (fun _ => 0) 1 0 0 =
    [SupEvent.headPoll 0 true, SupEvent.attempt 0 0 0, SupEvent.postPoll 0 true,
     SupEvent.sleep 0 5, SupEvent.headPoll 5 false] := by
  rw [process_stream_pos _ _ _ _ (by omega)]
  simp only [Nat.add_zero]
  rw [if_pos (by omega)]
  rw [process_stream_neg _ _ _ _ (by omega)]

/-- C6 (amended): after an attempt completes, (i) if the shutdown flag
is already set at the post-attempt load, the supervisor exits with no
backoff and no further attempt, whatever the attempt's outcome; (ii) if
the flag is still unset, the supervisor sleeps the full fixed 5-second
backoff and then starts a fresh attempt if and only if the flag is
still unset after the backoff (a fresh call carrying no session state);
(iii) there is no retry-count cap: with shutdown at time `5n+1`,
exactly `n+1` attempts are made. -/
theorem retry_policy_parts :
    (∀ (d : Nat → Nat) (Ts t k : Nat), t < Ts → Ts ≤ t + d k →
      process_stream d Ts t k =
        [SupEvent.headPoll t true, SupEvent.attempt k t (t + d k),
         SupEvent.postPoll (t + d k) false, SupEvent.headPoll (t + d k) false]) ∧
    (∀ (d : Nat → Nat) (Ts t k : Nat), t < Ts → t + d k < Ts →
      SupEvent.sleep (t + d k) (t + d k + 5) ∈ process_stream d Ts t k ∧
      (t + d k + 5 < Ts →
        SupEvent.attempt (k + 1) (t + d k + 5) (t + d k + 5 + d (k + 1)) ∈
          process_stream d Ts t k) ∧
      (Ts ≤ t + d k + 5 → countAttempts (process_stream d Ts t k) = 1)) ∧
    (∀ n : Nat, countAttempts (process_stream (fun _ => 0) (5 * n + 1) 0 0) = n + 1) := by
  refine ⟨?_, ?_, ?_⟩
  · intro d Ts t k h1 h2
    rw [process_stream_pos d Ts t k h1, if_neg (by omega)]
  · intro d Ts t k h1 h2
    rw [process_stream_pos d Ts t k h1, if_pos h2]
    refine ⟨by simp, ?_, ?_⟩
    · intro h3
      rw [process_stream_pos d Ts _ _ h3]
      simp
    · intro h3
      rw [process_stream_neg d Ts _ _ (by omega)]
      simp [countAttempts, SupEvent.isAttempt, List.filter]
  · intro n
    have := countAttempts_zero_dur n 0 0
    simpa using this

/-- C7 (amended): the backoff wait is a plain uninterruptible
`thread::sleep`: every backoff sleep in a supervisor trace lasts
exactly the full 5 seconds and begins while the flag is still unset;
if shutdown is requested by the end of the sleep, the supervisor
observes it only at the head poll right after the sleep and exits
exactly at the sleep's end — not before — so shutdown latency from a
request during backoff can be the full 5-second interval. -/
theorem backoff_sleep_spec (d : Nat → Nat) (Ts : Nat) :
    ∀ t k a b2, SupEvent.sleep a b2 ∈ process_stream d Ts t k →
      b2 = a + 5 ∧ a < Ts ∧
      (Ts ≤ b2 → exitTime (process_stream d Ts t k) = b2 ∧
        SupEvent.headPoll b2 false ∈ process_stream d Ts t k) := by
  intro t k
  induction t, k using process_stream.induct d Ts with
  | case1 t k h ih =>
    intro a b2 hm
    rw [process_stream_pos d Ts t k h] at hm ⊢
    by_cases h2 : t + d k < Ts
    · rw [if_pos h2] at hm ⊢
      simp only [List.mem_cons] at hm
      rcases hm with h3 | h3 | h3 | h3 | hm
      · exact absurd h3 (by simp)
      · exact absurd h3 (by simp)
      · exact absurd h3 (by simp)
      · obtain ⟨rfl, rfl⟩ : a = t + d k ∧ b2 = t + d k + 5 := by
          injection h3 with ha hb
          exact ⟨ha, hb⟩
        refine ⟨rfl, h2, ?_⟩
        intro h4
        rw [process_stream_neg d Ts _ _ (by omega)]
        constructor
        · rw [exitTime_cons _ _ (by simp), exitTime_cons _ _ (by simp),
            exitTime_cons _ _ (by simp), exitTime_cons _ _ (by simp)]
          simp [exitTime, SupEvent.time]
        · simp
      · obtain ⟨g1, g2, g3⟩ := ih a b2 hm
        refine ⟨g1, g2, ?_⟩
        intro h4
        obtain ⟨g4, g5⟩ := g3 h4
        constructor
        · rw [exitTime_cons _ _ (by simp), exitTime_cons _ _ (by simp),
            exitTime_cons _ _ (by simp),
            exitTime_cons _ _ (process_stream_ne_nil d Ts _ _)]
          exact g4
        · simp [g5]
    · rw [if_neg h2] at hm
      simp at hm
  | case2 t k h =>
    intro a b2 hm
    rw [process_stream_neg d Ts t k h] at hm
    simp at hm

theorem listener_trigger_iff (ls : List (Option String)) :
    ((inputListener ls).1 = true ↔ ∃ l, some l ∈ ls ∧ rustTrim l = "q") := by
  induction ls with
  | nil => simp [inputListener]
  | cons x rest ih =>
    cases x with
    | none =>
      simp only [inputListener]
      rw [ih]
      constructor
      · rintro ⟨l, hl, hq⟩; exact ⟨l, List.mem_cons_of_mem _ hl, hq⟩
      · rintro ⟨l, hl, hq⟩
        rcases List.mem_cons.mp hl with h | h
        · exact absurd h (by simp)
        · exact ⟨l, h, hq⟩
    | some l =>
      by_cases hq : rustTrim l = "q"
      · constructor
        · intro _
          exact ⟨l, List.mem_cons_self _ _, hq⟩
        · intro _
          simp [inputListener, hq]
      · simp only [inputListener, hq, if_neg, if_false]
        rw [ih]
        constructor
        · rintro ⟨l2, hl, h2⟩; exact ⟨l2, List.mem_cons_of_mem _ hl, h2⟩
        · rintro ⟨l2, hl, h2⟩
          rcases List.mem_cons.mp hl with h | h
          · cases h; exact absurd h2 hq
          · exact ⟨l2, h, h2⟩

theorem listener_stops_at_first (pre : List (Option String)) (l : String)
    (rest : List (Option String))
    (hpre : ∀ x ∈ pre, ∀ s, x = some s → rustTrim s ≠ "q")
    (hl : rustTrim l = "q") :
    inputListener (pre ++ some l :: rest) = (true, rest) := by
  induction pre with
  | nil => simp [inputListener, hl]
  | cons x pre ih =>
    have hrec := ih fun y hy => hpre y (List.mem_cons_of_mem _ hy)
    cases x with
    | none => simpa [inputListener] using hrec
    | some s =>
      have hs : rustTrim s ≠ "q" := hpre (some s) (List.mem_cons_self _ _) s rfl
      simpa [inputListener, hs] using hrec

theorem read_urls_ok_map (ls : List String) :
    read_urls (ls.map Except.ok) = Except.ok ls := by
  induction ls with
  | nil => rfl
  | cons l rest ih => simp [read_urls, ih]

theorem read_urls_first_error (pre : List String) (e : String)
    (rest : List (Except String String)) :
    read_urls (pre.map Except.ok ++ Except.error e :: rest) = Except.error e := by
  induction pre with
  | nil => rfl
  | cons l p ih => simp [read_urls, ih]

theorem mainSpawns_ok (ls : List String) :
    mainSpawns (ls.map Except.ok) = Except.ok ls.enum := by
  simp [mainSpawns, read_urls_ok_map]

/-- C1 (amended): on every exit path of one recording attempt that
returns Ok — natural end-of-stream, or the shutdown-requested break,
with the final flush succeeding — every segment file the attempt
opened (rotated segments and the final one) received a successful
flush before its handle was closed.  (Mid-stream error paths return
early via `?` and may close the current segment unflushed; see the
counterexample.) -/
theorem flush_before_close_on_ok_paths (E : Env) (openOk : Bool) (openErr : String)
    (best : Option Nat) (startTime : Nat) (items : List SrcItem)
    (h : (stream_to_file E openOk openErr best startTime items).res = .ok ()) :
    closeFlushedOk [] (stream_to_file E openOk openErr best startTime items).evs = true := by
  unfold stream_to_file at h ⊢
  by_cases hop : openOk
  · cases best with
    | none => simp [hop] at h
    | some vi =>
      by_cases h0 : E.ioOk 0
      · obtain ⟨⟨b2, hfold⟩, -, hcf⟩ :=
          runLoop_state E vi items 0 startTime 1 1 false Nat.zero_lt_one
        simp only [hop, h0, if_true, if_pos] at h ⊢
        rcases hres : (runLoop E vi items 0 startTime 1 1).res with ⟨c, l2, n2, io2⟩ | ⟨msg, c⟩
        · have hc : (runLoop E vi items 0 startTime 1 1).res.cur = c := by rw [hres]; rfl
          rw [hc] at hfold
          rw [hres] at h
          by_cases h2 : E.ioOk io2
          · simp [h2, closeFlushedOk_create_nil, closeFlushedOk_append, hfold,
              hcf, closeFlushedOk_tail_flush_close]
          · simp [h2] at h
        · rw [hres] at h
          simp at h
      · simp [hop, h0] at h
  · simp [hop] at h

/-- C1 (witness): a run with a 300-second-old packet (forcing one
rotation) that ends normally: the attempt returns Ok and every close
in its trace is of a flushed file. -/
theorem flush_before_close_on_ok_paths_witness :
    closeFlushedOk []
      (stream_to_file allOkEnv true "x" (some 0) 0 [SrcItem.pkt 300 0 (some [1])]).evs
      = true :=
  flush_before_close_on_ok_paths allOkEnv true "x" (some 0) 0
    [SrcItem.pkt 300 0 (some [1])] rfl

/-- C1 (counterexample): the claim "every exit path flushes the current
segment before returning, including a failed write of packet data" is
false: when `write_all` fails, the `?` operator returns the error
immediately — the trace contains no flush at all, the file is closed
(dropped) unflushed. -/
theorem write_error_exit_unflushed_cex :
    (stream_to_file ⟨1000000, fun n => decide (n ≠ 1), fun _ => "boom"⟩ true "x"
        (some 0) 0 [SrcItem.pkt 0 0 (some [7])]).res =
      .error "Failed to write packet data: boom" ∧
    (stream_to_file ⟨1000000, fun n => decide (n ≠ 1), fun _ => "boom"⟩ true "x"
        (some 0) 0 [SrcItem.pkt 0 0 (some [7])]).evs =
      [.create 0 0, .write 0 [7] false, .close 0] ∧
    closeFlushedOk []
      (stream_to_file ⟨1000000, fun n => decide (n ≠ 1), fun _ => "boom"⟩ true "x"
        (some 0) 0 [SrcItem.pkt 0 0 (some [7])]).evs = false :=
  ⟨rfl, by decide, by decide⟩

/-- C2 (amended): the packet iterator's error items are invisible: the
code's `filter_map(|r| r.ok())` drops every collaborator-reported
error item — malformed-packet errors and stream-level errors alike —
before the loop body runs, so no error item ever terminates the
attempt or yields an error outcome; an attempt behaves exactly as if
the error items were absent from the packet sequence. -/
theorem stream_error_items_invisible (E : Env) (openOk : Bool) (openErr : String)
    (best : Option Nat) (startTime : Nat) (items : List SrcItem) :
    stream_to_file E openOk openErr best startTime (items.filter fun i => !i.isErr) =
      stream_to_file E openOk openErr best startTime items := by
  unfold stream_to_file
  cases best with
  | none => rfl
  | some vi => simp [runLoop_filter_err]

/-- C2 (counterexample): the claim that a collaborator-reported
stream-level error terminates `Streaming` and makes the attempt end in
`Failed` is false: with an error item in the packet sequence the
attempt keeps streaming (a later packet is still written) and returns
Ok, the error being silently dropped. -/
theorem stream_error_item_ok_outcome_cex :
    (stream_to_file allOkEnv true "x" (some 0) 0
        [SrcItem.err 0 "Connection reset by peer", SrcItem.pkt 1 0 (some [5])]).res =
      .ok () ∧
    FsEvent.write 0 [5] true ∈
      (stream_to_file allOkEnv true "x" (some 0) 0
        [SrcItem.err 0 "Connection reset by peer", SrcItem.pkt 1 0 (some [5])]).evs :=
  ⟨rfl, by decide⟩

/-- C3: every completed (rotated, non-final) segment of an attempt was
rotated at the processing time of a selected-lane video packet, at
least 300 seconds after the segment's file was created, and the
replacement file's creation time equals the rotation time (the
elapsed-time clock restarts at zero). -/
theorem rotation_lower_bound (E : Env) (openErr : String) (vi startTime : Nat)
    (items : List SrcItem) (f o r : Nat)
    (hm : (f, o, r) ∈ (stream_to_file E true openErr (some vi) startTime items).rots) :
    o + 300 ≤ r ∧
    FsEvent.create f o ∈ (stream_to_file E true openErr (some vi) startTime items).evs ∧
    FsEvent.create (f + 1) r ∈ (stream_to_file E true openErr (some vi) startTime items).evs ∧
    ∃ d, SrcItem.pkt r vi d ∈ items := by
  unfold stream_to_file at hm ⊢
  by_cases h0 : E.ioOk 0
  · simp only [h0, if_true, if_pos] at hm ⊢
    rcases hres : (runLoop E vi items 0 startTime 1 1).res with ⟨c, l2, n2, io2⟩ | ⟨msg, c⟩
    · rw [hres] at hm
      by_cases h2 : E.ioOk io2
      · simp only [h2, if_true, if_pos] at hm ⊢
        obtain ⟨g1, ⟨d, g2⟩, g3, g4⟩ :=
          runLoop_rots_spec E vi items 0 startTime 1 1 rfl f o r hm
        refine ⟨by omega, ?_, ?_, ⟨d, g2⟩⟩
        · rcases g3 with ⟨rfl, rfl⟩ | g3
          · simp
          · simp [g3]
        · simp [g4]
      · simp only [h2, if_false, if_neg] at hm ⊢
        obtain ⟨g1, ⟨d, g2⟩, g3, g4⟩ :=
          runLoop_rots_spec E vi items 0 startTime 1 1 rfl f o r hm
        refine ⟨by omega, ?_, ?_, ⟨d, g2⟩⟩
        · rcases g3 with ⟨rfl, rfl⟩ | g3
          · simp
          · simp [g3]
        · simp [g4]
    · rw [hres] at hm
      simp only [] at hm ⊢
      obtain ⟨g1, ⟨d, g2⟩, g3, g4⟩ :=
        runLoop_rots_spec E vi items 0 startTime 1 1 rfl f o r hm
      refine ⟨by omega, ?_, ?_, ⟨d, g2⟩⟩
      · rcases g3 with ⟨rfl, rfl⟩ | g3
        · simp
        · simp [g3]
      · simp [g4]
  · simp [h0] at hm

/-- C3 (witness): a packet arriving 300 seconds after the first file's
creation triggers one rotation: the rotated segment (file 0) lived
exactly 300 seconds, and its replacement (file 1) was created at the
rotation instant. -/
theorem rotation_lower_bound_witness :
    0 + 300 ≤ 300 ∧
    FsEvent.create 0 0 ∈
      (stream_to_file allOkEnv true "x" (some 0) 0 [SrcItem.pkt 300 0 (some [1])]).evs ∧
    FsEvent.create 1 300 ∈
      (stream_to_file allOkEnv true "x" (some 0) 0 [SrcItem.pkt 300 0 (some [1])]).evs ∧
    ∃ d, SrcItem.pkt 300 0 d ∈ [SrcItem.pkt 300 0 (some [1])] :=
  rotation_lower_bound allOkEnv "x" 0 0 [SrcItem.pkt 300 0 (some [1])] 0 0 300 (by decide)

/-- C4 (amended): along any attempt's event trace, at every instant at
most two files are open-for-write and at most one of them holds
unflushed data, and a new segment file is only ever created while
every open file is flushed — the rotation handoff flushes the old file
before creating its replacement, but closes the old handle only after
the new file exists, so two (the flushed old one and the fresh new
one) briefly coexist. -/
theorem open_file_handoff_invariant (E : Env) (openOk : Bool) (openErr : String)
    (best : Option Nat) (startTime : Nat) (items : List SrcItem) :
    invOk [] (stream_to_file E openOk openErr best startTime items).evs = true := by
  unfold stream_to_file
  by_cases hop : openOk
  · cases best with
    | none => simp [hop, invOk, stOk]
    | some vi =>
      by_cases h0 : E.ioOk 0
      · obtain ⟨⟨b2, hfold⟩, hinv, -⟩ :=
          runLoop_state E vi items 0 startTime 1 1 false Nat.zero_lt_one
        simp only [hop, h0, if_true, if_pos]
        rcases hres : (runLoop E vi items 0 startTime 1 1).res with ⟨c, l2, n2, io2⟩ | ⟨msg, c⟩
        · have hc : (runLoop E vi items 0 startTime 1 1).res.cur = c := by rw [hres]; rfl
          rw [hc] at hfold
          by_cases h2 : E.ioOk io2 <;>
            simp [h2, invOk_create_nil, invOk_append, hfold, hinv,
              invOk_tail_flush_close]
        · have hc : (runLoop E vi items 0 startTime 1 1).res.cur = c := by rw [hres]; rfl
          rw [hc] at hfold
          simp [invOk_create_nil, invOk_append, hfold, hinv, invOk_tail_close]
      · simp [hop, h0, invOk, stOk]
  · simp [hop, invOk, stOk]

/-- C4 (counterexample): the claim that at most one segment file is
open-for-write at every instant, the old file being flushed AND CLOSED
before the replacement exists, is false: during rotation the code
flushes the old file, then `create_output_file` opens the new file,
and only the assignment afterwards drops the old handle — the trace
shows `create 1` strictly before `close 0`, and the maximal number of
simultaneously open files is 2. -/
theorem two_files_open_during_rotation_cex :
    (stream_to_file allOkEnv true "x" (some 0) 0 [SrcItem.pkt 300 0 (some [1])]).evs =
      [.create 0 0, .write 0 [1] true, .flush 0 true, .create 1 300, .close 0,
       .flush 1 true, .close 1] ∧
    maxOpen (stream_to_file allOkEnv true "x" (some 0) 0 [SrcItem.pkt 300 0 (some [1])]).evs
      = 2 :=
  ⟨by decide, by decide⟩

/-- C5 (witness): a mixed packet sequence — video packets with payload,
a foreign-lane packet, a payload-less video packet, an error item —
written verbatim: only the selected lane's payloads reach the file, in
order, and the attempt succeeds. -/
theorem packet_routing_witness :
    (stream_to_file allOkEnv true "x" (some 2) 0
        [SrcItem.pkt 0 2 (some [1, 2]), SrcItem.pkt 1 3 (some [9]),
         SrcItem.pkt 2 2 none, SrcItem.err 3 "z", SrcItem.pkt 4 2 (some [3])]).res =
      .ok () ∧
    writtenBytes (stream_to_file allOkEnv true "x" (some 2) 0
        [SrcItem.pkt 0 2 (some [1, 2]), SrcItem.pkt 1 3 (some [9]),
         SrcItem.pkt 2 2 none, SrcItem.err 3 "z", SrcItem.pkt 4 2 (some [3])]).evs =
      (([SrcItem.pkt 0 2 (some [1, 2]), SrcItem.pkt 1 3 (some [9]),
         SrcItem.pkt 2 2 none, SrcItem.err 3 "z", SrcItem.pkt 4 2 (some [3])]).filterMap
        (videoPayload 2)).flatten :=
  packet_routing allOkEnv "x" 2 0
    [SrcItem.pkt 0 2 (some [1, 2]), SrcItem.pkt 1 3 (some [9]),
     SrcItem.pkt 2 2 none, SrcItem.err 3 "z", SrcItem.pkt 4 2 (some [3])]
    (fun _ => rfl) (by decide)

/-- C6 (witness): concrete instances of the three parts of the retry
policy: an attempt completing after shutdown exits with no backoff and
no retry; an attempt completing before shutdown is followed by the
5-second sleep, and when shutdown falls inside that sleep no fresh
attempt follows; with shutdown at time 11 exactly 3 attempts occur. -/
theorem retry_policy_parts_witness :
    process_stream (fun _ => 2) 1 0 0 =
      [SupEvent.headPoll 0 true, SupEvent.attempt 0 0 2, SupEvent.postPoll 2 false,
       SupEvent.headPoll 2 false] ∧
    SupEvent.sleep 0 5 ∈ process_stream (fun _ => 0) 1 0 0 ∧
    countAttempts (process_stream (fun _ => 0) 1 0 0) = 1 ∧
    countAttempts (process_stream (fun _ => 0) 11 0 0) = 3 :=
  ⟨retry_policy_parts.1 (fun _ => 2) 1 0 0 (by decide) (by decide),
   (retry_policy_parts.2.1 (fun _ => 0) 1 0 0 (by decide) (by decide)).1,
   (retry_policy_parts.2.1 (fun _ => 0) 1 0 0 (by decide) (by decide)).2.2 (by decide),
   retry_policy_parts.2.2 2⟩

/-- C6 (counterexample): the claim that whenever the shutdown flag is
unset at an attempt's completion the supervisor waits 5 seconds and
then starts a fresh attempt is false: with shutdown requested at time
1, the flag is observed unset at the attempt's completion
(`postPoll 0 true`) and the 5-second backoff is slept, but the loop
head then observes the flag set and exits — the trace contains exactly
one attempt. -/
theorem backoff_shutdown_no_fresh_attempt_cex :
    process_stream (fun _ => 0) 1 0 0 =
      [SupEvent.headPoll 0 true, SupEvent.attempt 0 0 0, SupEvent.postPoll 0 true,
       SupEvent.sleep 0 5, SupEvent.headPoll 5 false] ∧
    countAttempts (process_stream (fun _ => 0) 1 0 0) = 1 := by
  refine ⟨trace1_eq, ?_⟩
  rw [trace1_eq]
  decide

/-- C7 (witness): with shutdown requested at time 1, during the backoff
sleep that runs from 0 to 5, the supervisor exits exactly at time 5,
observing the flag only at the post-sleep head poll. -/
theorem backoff_sleep_spec_witness :
    exitTime (process_stream (fun _ => 0) 1 0 0) = 5 ∧
    SupEvent.headPoll 5 false ∈ process_stream (fun _ => 0) 1 0 0 :=
  (backoff_sleep_spec (fun _ => 0) 1 0 0 0 5 (by rw [trace1_eq]; decide)).2.2 (by omega)

/-- C7 (counterexample): the claim that a shutdown request during the
backoff wait is observed well before the full 5-second interval
elapses is false: shutdown is requested at time 1, strictly inside the
sleep interval (0, 5), yet the supervisor's trace ends exactly at time
5 — the full interval elapses. -/
theorem backoff_full_sleep_cex :
    SupEvent.sleep 0 5 ∈ process_stream (fun _ => 0) 1 0 0 ∧
    0 < 1 ∧ 1 < 5 ∧
    exitTime (process_stream (fun _ => 0) 1 0 0) = 5 ∧
    ¬ exitTime (process_stream (fun _ => 0) 1 0 0) < 0 + 5 := by
  rw [trace1_eq]
  exact ⟨by decide, by decide, by decide, by decide, by decide⟩

/-- C8 (amended): the listener triggers shutdown exactly when a line
whose whitespace-trimmed content equals the token `q` is read
(`input.trim() == "q"`); read errors and all other lines are skipped
and the listener keeps waiting; at the first such line the flag is set
and the listener stops, leaving the remaining input unread. -/
theorem listener_trim_q_semantics :
    (∀ ls : List (Option String),
      ((inputListener ls).1 = true ↔ ∃ l, some l ∈ ls ∧ rustTrim l = "q")) ∧
    (∀ (pre : List (Option String)) (l : String) (rest : List (Option String)),
      (∀ x ∈ pre, ∀ s, x = some s → rustTrim s ≠ "q") → rustTrim l = "q" →
      inputListener (pre ++ some l :: rest) = (true, rest)) :=
  ⟨listener_trigger_iff, listener_stops_at_first⟩

/-- C8 (witness): on the input `["hi", read-error, " q", "later"]` the
listener triggers, stopping right after the `" q"` line with `"later"`
left unread; a line led by U+000B (vertical tab, a Unicode
`White_Space` character beyond ASCII space/tab/newline, trimmed by
Rust's `str::trim`) also triggers. -/
theorem listener_trim_q_semantics_witness :
    (inputListener [some "hi", none, some " q", some "later"]).1 = true ∧
    inputListener [some "hi", none, some " q", some "later"] =
      (true, [some "later"]) ∧
    (inputListener [some "\x0Bq"]).1 = true := by
  refine ⟨?_, ?_, ?_⟩
  · exact (listener_trim_q_semantics.1 _).mpr ⟨" q", by decide, by decide⟩
  · refine listener_trim_q_semantics.2 [some "hi", none] " q" [some "later"] ?_ (by decide)
    intro x hx s hs
    rcases List.mem_cons.mp hx with rfl | hx2
    · injection hs with h2
      rw [← h2]
      decide
    · rcases List.mem_cons.mp hx2 with rfl | hx3
      · cases hs
      · simp at hx3
  · exact (listener_trim_q_semantics.1 _).mpr ⟨"\x0Bq", by decide, by decide⟩

/-- C8 (counterexample): the claim that shutdown is triggered exactly
when a line EQUAL to the literal token `q` is read is false: the code
compares `input.trim() == "q"`, so the line `" q"` — not equal to
`"q"` — also triggers shutdown. -/
theorem untrimmed_q_line_triggers_cex :
    (inputListener [some " q"]).1 = true ∧ " q" ≠ "q" :=
  ⟨by decide, by decide⟩

/-- C9: reading the URL list preserves every line verbatim — no
trimming, no filtering — so empty and whitespace-only lines become
stream targets with that exact (possibly empty) address, one
supervisor spawned per line with its index; a line-read error makes
reading fail with that first error.  The concrete parts show
`BufRead::lines` yielding the blank and whitespace-only lines of a
file and `main` spawning a target with the empty address for the
blank line. -/
theorem read_urls_verbatim_spec :
    (∀ ls : List String, read_urls (ls.map Except.ok) = Except.ok ls) ∧
    (∀ (pre : List String) (e : String) (rest : List (Except String String)),
      read_urls (pre.map Except.ok ++ Except.error e :: rest) = Except.error e) ∧
    (∀ ls : List String, mainSpawns (ls.map Except.ok) = Except.ok ls.enum) ∧
    rustLines "rtsp://a\n\n  \nrtsp://b\n" = ["rtsp://a", "", "  ", "rtsp://b"] ∧
    mainSpawns ((rustLines "rtsp://a\n\n  \nrtsp://b\n").map Except.ok) =
      Except.ok [(0, "rtsp://a"), (1, ""), (2, "  "), (3, "rtsp://b")] :=
  ⟨read_urls_ok_map, read_urls_first_error, mainSpawns_ok, by decide, rfl⟩

/-- C10: the supervisor loads the shutdown flag at the loop head before
any attempt: if shutdown is already requested when it starts, zero
attempts are made; in general the number of attempts in a supervisor
trace equals the number of head polls that observed the flag unset. -/
theorem supervisor_head_poll_gates_attempts (d : Nat → Nat) (Ts t0 : Nat) :
    (Ts ≤ t0 → countAttempts (process_stream d Ts t0 0) = 0) ∧
    countAttempts (process_stream d Ts t0 0) = countHeadTrue (process_stream d Ts t0 0) := by
  constructor
  · intro h
    rw [process_stream_neg d Ts t0 0 (by omega)]
    simp [countAttempts, SupEvent.isAttempt, List.filter]
  · exact countAttempts_eq_countHeadTrue d Ts t0 0

/-- C10 (witness): a supervisor started at time 3 with shutdown already
requested at time 0 makes zero attempts, and attempt count matches the
count of head polls observing the flag unset. -/
theorem supervisor_head_poll_gates_attempts_witness :
    countAttempts (process_stream (fun _ => 0) 0 3 0) = 0 ∧
    countAttempts (process_stream (fun _ => 0) 0 3 0) =
      countHeadTrue (process_stream (fun _ => 0) 0 3 0) :=
  ⟨(supervisor_head_poll_gates_attempts (fun _ => 0) 0 3).1 (by omega),
   (supervisor_head_poll_gates_attempts (fun _ => 0) 0 3).2⟩
